import Mathlib

/-!
Shallow Lean embedding of the core of the `nsswitch_service` crate:
the bump allocator (`src/alloc.rs`), the error/status model
(`src/errors.rs`), and the hostent record encoder plus entry-point
adapters (`src/macros.rs`, `src/interfaces.rs`).

Modelling conventions:
* machine addresses and sizes are `Nat`, with the 64-bit bounds
  `USIZE_MAX` and `ISIZE_MAX` made explicit wherever the Rust code
  performs an overflow check (`overflowing_add`, `usize::max_value()`);
* the scratch buffer is a byte memory `Mem : Nat → Nat`; multi-byte
  values (pointers, `in_addr_t`) are laid out byte by byte the way the
  Rust code stores them on the little-endian Linux targets this crate
  is compiled for, so a stored `u32::to_be()` appears in memory in
  network byte order;
* `libc::abort()` inside `Error::new` is modelled by returning `none`;
* fallible operations return `Except Error`, and every `&mut self`
  allocator method also returns the allocator state so that the state
  after a failed call is observable.
-/

namespace Nss

/-- `usize::max_value()` on the 64-bit targets the crate is built for. -/
def USIZE_MAX : Nat := 2 ^ 64 - 1

/-- `isize::max_value() as usize` on 64-bit targets. -/
def ISIZE_MAX : Nat := 2 ^ 63 - 1

/-- `libc::ERANGE` on Linux. -/
def ERANGE : Int := 34

/-- `libc::EINVAL` on Linux. -/
def EINVAL : Int := 22

/-- `libc::ENOENT` on Linux. -/
def ENOENT : Int := 2

/-- `libc::AF_INET` on Linux. -/
def AF_INET : Int := 2

/-- `libc::AF_INET6` on Linux. -/
def AF_INET6 : Int := 10

/-- `NssStatus` from `src/errors.rs`. -/
inductive NssStatus where
  | TryAgain
  | Unavailable
  | NotFound
  | Success
deriving DecidableEq, Repr

/-- The `#[repr(C)]` discriminants of `NssStatus`. -/
def NssStatus.toInt : NssStatus → Int
  | .TryAgain => -2
  | .Unavailable => -1
  | .NotFound => 0
  | .Success => 1

/-- `NETDB_INTERNAL` from `src/errors.rs` (see errno). -/
def NETDB_INTERNAL : Int := -1

/-- `NETDB_SUCCESS` from `src/errors.rs` (no problem). -/
def NETDB_SUCCESS : Int := 0

/-- The `Error` struct from `src/errors.rs`: a status plus the two
error-detail channels `errno` and `h_errno`. -/
structure Error where
  status : NssStatus
  errno : Int
  h_errno : Int
deriving DecidableEq, Repr

/-- `HostError` from `src/errors.rs`. -/
inductive HostError where
  | HostNotFound
  | TryAgain
  | NoRecovery
  | NoData
deriving DecidableEq, Repr

/-- The `#[repr(C)]` discriminants of `HostError`. -/
def HostError.toInt : HostError → Int
  | .HostNotFound => 1
  | .TryAgain => 2
  | .NoRecovery => 3
  | .NoData => 4

/-- `Error::buffer_too_small` from `src/errors.rs`. It builds the
struct literal directly, bypassing the checks of `Error::new` (the
`(TryAgain, ERANGE)` pairing is reserved for exactly this value). -/
def Error.buffer_too_small : Error :=
  ⟨NssStatus.TryAgain, ERANGE, NETDB_INTERNAL⟩

/-- `Error::new` from `src/errors.rs`. Each `abort!` branch of the
Rust code is modelled by `none`; a returned value is `some`. -/
def Error.new (status : NssStatus) (errno h_errno : Int) : Option Error :=
  if status = NssStatus.Success then
    none
  else if h_errno = NETDB_SUCCESS then
    none
  else if h_errno = NETDB_INTERNAL ∧ errno = 0 then
    none
  else if status = NssStatus.TryAgain ∧ errno = ERANGE then
    none
  else
    some ⟨status, errno, h_errno⟩

/-- `Error::with_errno` from `src/errors.rs`: routes through
`Error::new` with `h_errno = NETDB_INTERNAL`. -/
def Error.with_errno (status : NssStatus) (errno : Int) : Option Error :=
  Error.new status errno NETDB_INTERNAL

/-- `Error::with_host` from `src/errors.rs`: routes through
`Error::new` with the `HostError` discriminant as `h_errno`. -/
def Error.with_host (status : NssStatus) (errno : Int) (h : HostError) :
    Option Error :=
  Error.new status errno h.toInt

/-- The value produced by `Error::invalid_args`, which calls
`Error::new(Unavailable, EINVAL, NETDB_INTERNAL)`. For these arguments
none of the `abort!` checks fires (`invalid_args_via_new` below), so
the model can use the resulting value directly. -/
def Error.invalid_args : Error :=
  ⟨NssStatus.Unavailable, EINVAL, NETDB_INTERNAL⟩

/-- `Error::report_with_host` from `src/errors.rs`, acting on the two
caller-provided code slots passed in as prior values: `*h_errnop` is
always assigned `self.h_errno`; `*errnop` is assigned `self.errno`
only when `self.h_errno == NETDB_INTERNAL`; `self.status` is the call
result. Returns `(status, errnop, h_errnop)` after the call. -/
def Error.report_with_host (e : Error) (errnop _h_errnop : Int) :
    NssStatus × Int × Int :=
  (e.status, if e.h_errno = NETDB_INTERNAL then e.errno else errnop, e.h_errno)

/-- The `BumpAllocator` struct from `src/alloc.rs`: `point` is the
address of the first unused byte, `stop` is one past the end of the
buffer. -/
structure BumpAllocator where
  point : Nat
  stop : Nat
deriving DecidableEq, Repr

/-- `BumpAllocator::from_ptr` from `src/alloc.rs`: rejects lengths
that exceed `isize::MAX` or make `point + buflen` overflow; otherwise
builds the allocator over `[buffer, buffer + buflen)` (as
`BumpAllocator::new` does on the resulting slice). -/
def BumpAllocator.from_ptr (buffer buflen : Nat) :
    Except Error BumpAllocator :=
  if ISIZE_MAX < buflen ∨ USIZE_MAX - buffer < buflen then
    Except.error Error.invalid_args
  else
    Except.ok ⟨buffer, buffer + buflen⟩

/-- The rounding computed inside `align_to_multiple_of`: with
`padded = p + (align - 1)`, the aligned address is
`padded - padded % align`, the next multiple of `align` at or after
`p`. -/
def roundUp (p align : Nat) : Nat :=
  (p + (align - 1)) - (p + (align - 1)) % align

/-- `BumpAllocator::align_to_multiple_of` from `src/alloc.rs`:
`point.overflowing_add(alignment - 1)` with the wrap flag checked,
then round down to a multiple of `alignment`; fails (state unchanged)
when the addition wraps or the aligned address passes `stop`. -/
def BumpAllocator.align_to_multiple_of (a : BumpAllocator)
    (alignment : Nat) : BumpAllocator × Except Error Unit :=
  if USIZE_MAX < a.point + (alignment - 1) then
    (a, Except.error Error.buffer_too_small)
  else if a.stop < roundUp a.point alignment then
    (a, Except.error Error.buffer_too_small)
  else
    ({ a with point := roundUp a.point alignment }, Except.ok ())

/-- `BumpAllocator::align_to` from `src/alloc.rs`, with the type
parameter `T` replaced by its alignment: alignment `0` cannot happen
and is reported as out of room, alignment `1` is a no-op, anything
else defers to `align_to_multiple_of`. -/
def BumpAllocator.align_to (a : BumpAllocator) (alignment : Nat) :
    BumpAllocator × Except Error Unit :=
  match alignment with
  | 0 => (a, Except.error Error.buffer_too_small)
  | 1 => (a, Except.ok ())
  | alignment => a.align_to_multiple_of alignment

/-- `BumpAllocator::take` from `src/alloc.rs`: fails when fewer than
`nbytes` bytes remain, otherwise returns the old `point` and advances
it by `nbytes`. -/
def BumpAllocator.take (a : BumpAllocator) (nbytes : Nat) :
    BumpAllocator × Except Error Nat :=
  if a.stop - a.point < nbytes then
    (a, Except.error Error.buffer_too_small)
  else
    ({ a with point := a.point + nbytes }, Except.ok a.point)

/-- `BumpAllocator::allocate` from `src/alloc.rs`, with the value's
type replaced by its `(size, align)` pair and the returned reference
by its address: align, then take `size` bytes. (The `ptr::write` of
the value itself is a memory effect not observed by any claim about
`allocate`.) -/
def BumpAllocator.allocate (a : BumpAllocator) (size align : Nat) :
    BumpAllocator × Except Error Nat :=
  match a.align_to align with
  | (a1, Except.error e) => (a1, Except.error e)
  | (a1, Except.ok _) => a1.take size

/-- Byte memory standing for the caller's scratch buffer (and the
address space around it). -/
def Mem : Type := Nat → Nat

/-- All-zero initial memory. -/
def mem0 : Mem := fun _ => 0

/-- Store one byte. -/
def writeByte (m : Mem) (addr v : Nat) : Mem :=
  fun x => if x = addr then v else m x

/-- Store a list of bytes at consecutive addresses. -/
def writeBytes (m : Mem) (addr : Nat) : List Nat → Mem
  | [] => m
  | b :: bs => writeBytes (writeByte m addr b) (addr + 1) bs

/-- Read `n` bytes from consecutive addresses. -/
def readBytes (m : Mem) (addr : Nat) : Nat → List Nat
  | 0 => []
  | n + 1 => m addr :: readBytes m (addr + 1) n

/-- The 8 bytes of a pointer as stored in memory on the little-endian
64-bit targets this crate is compiled for. -/
def ptrBytes (p : Nat) : List Nat :=
  [p % 256, p / 2 ^ 8 % 256, p / 2 ^ 16 % 256, p / 2 ^ 24 % 256,
   p / 2 ^ 32 % 256, p / 2 ^ 40 % 256, p / 2 ^ 48 % 256, p / 2 ^ 56 % 256]

/-- Decode a stored pointer back from its 8 little-endian bytes. -/
def readPtr (m : Mem) (addr : Nat) : Nat :=
  m addr + m (addr + 1) * 2 ^ 8 + m (addr + 2) * 2 ^ 16 +
    m (addr + 3) * 2 ^ 24 + m (addr + 4) * 2 ^ 32 + m (addr + 5) * 2 ^ 40 +
    m (addr + 6) * 2 ^ 48 + m (addr + 7) * 2 ^ 56

/-- `BumpAllocator::copy_c_str` from `src/alloc.rs`, on the bytes of
the C string without its terminator: `to_bytes_with_nul` makes
`nbytes = strBytes.length + 1`; `take nbytes` reserves the slot and
returns `dst`; the bytes plus the NUL are copied to `dst`; and then —
exactly as the source does with `self.point += nbytes;` after `take`
has already advanced `point` — the cursor is advanced by `nbytes` a
second time, without any bounds check. -/
def BumpAllocator.copy_c_str (a : BumpAllocator) (m : Mem)
    (strBytes : List Nat) : BumpAllocator × Mem × Except Error Nat :=
  match a.take (strBytes.length + 1) with
  | (a1, Except.error e) => (a1, m, Except.error e)
  | (a1, Except.ok dst) =>
    ({ a1 with point := a1.point + (strBytes.length + 1) },
     writeBytes m dst (strBytes ++ [0]), Except.ok dst)

/-- The element loop of `BumpAllocator::allocate_array`: take
`elemSize` bytes per element and `ptr::write` the element (given here
as its byte image); a failure partway leaves the earlier elements
written and the cursor where the failing `take` left it. -/
def allocArrayLoop (a : BumpAllocator) (m : Mem) (elemSize : Nat) :
    List (List Nat) → BumpAllocator × Mem × Except Error Unit
  | [] => (a, m, Except.ok ())
  | e :: rest =>
    match a.take elemSize with
    | (a1, Except.error err) => (a1, m, Except.error err)
    | (a1, Except.ok p) => allocArrayLoop a1 (writeBytes m p e) elemSize rest

/-- `BumpAllocator::allocate_array` from `src/alloc.rs`, with the item
type replaced by its `(elemSize, elemAlign)` pair and each item by its
byte image: align once, remember `array_ptr = point`, then write the
items one `take` at a time; on success return `array_ptr`. -/
def BumpAllocator.allocate_array (a : BumpAllocator) (m : Mem)
    (elemSize elemAlign : Nat) (elems : List (List Nat)) :
    BumpAllocator × Mem × Except Error Nat :=
  match a.align_to elemAlign with
  | (a1, Except.error e) => (a1, m, Except.error e)
  | (a1, Except.ok _) =>
    match allocArrayLoop a1 m elemSize elems with
    | (a2, m2, Except.error e) => (a2, m2, Except.error e)
    | (a2, m2, Except.ok _) => (a2, m2, Except.ok a1.point)

/-- `std::net::Ipv4Addr` as its four octets. -/
structure Ipv4Addr where
  a : Nat
  b : Nat
  c : Nat
  d : Nat
deriving DecidableEq, Repr

/-- `std::net::Ipv6Addr` as its sixteen octets. -/
structure Ipv6Addr where
  octets : List Nat
deriving DecidableEq, Repr

/-- `to_in_addr_t` from `src/macros.rs`: `Ipv4Addr as Into<u32>`
interprets the octets big-endian. -/
def to_in_addr_t (ip : Ipv4Addr) : Nat :=
  ((ip.a * 256 + ip.b) * 256 + ip.c) * 256 + ip.d

/-- The 4 bytes that `ptr::write` of `v.to_be()` leaves in memory on a
little-endian host: the big-endian (network-order) byte image of the
`u32` value `v`. -/
def u32NetworkBytes (v : Nat) : List Nat :=
  [v / 2 ^ 24 % 256, v / 2 ^ 16 % 256, v / 2 ^ 8 % 256, v % 256]

/-- `HostAddressList` from `src/interfaces.rs`. -/
inductive HostAddressList where
  | V4 (addrs : List Ipv4Addr)
  | V6 (addrs : List Ipv6Addr)
deriving Repr

/-- `HostEntry` from `src/interfaces.rs`, with C strings as byte lists
(terminator not included; the encoder appends it). The `Cow`
borrowed/owned distinction is invisible to the encoder, which deep
copies either way. -/
structure HostEntry where
  name : List Nat
  aliases : List (List Nat)
  addr_list : HostAddressList
deriving Repr

/-- `libc::hostent` as written by the encoder: addresses for the
pointer fields (`0` is the null pointer) and the two numeric tags. -/
structure Hostent where
  h_name : Nat
  h_aliases : Nat
  h_addrtype : Int
  h_length : Int
  h_addr_list : Nat
deriving DecidableEq, Repr

/-- The alias-copying loop of `HostEntry::write_to`: the
`map(copy_c_str).collect::<Result<Vec<_>>>()` stops at the first
failing alias with the earlier copies already written. -/
def copyAliases (a : BumpAllocator) (m : Mem) :
    List (List Nat) → BumpAllocator × Mem × Except Error (List Nat)
  | [] => (a, m, Except.ok [])
  | s :: rest =>
    match a.copy_c_str m s with
    | (a1, m1, Except.error e) => (a1, m1, Except.error e)
    | (a1, m1, Except.ok p) =>
      match copyAliases a1 m1 rest with
      | (a2, m2, Except.error e) => (a2, m2, Except.error e)
      | (a2, m2, Except.ok ps) => (a2, m2, Except.ok (p :: ps))

/-- `HostEntry::write_to` from `src/macros.rs`. Wraps the buffer with
`from_ptr`; copies the name; for a non-empty alias list copies each
alias then stores the pointer array over the copies (the source builds
this array without a null terminator); for the V4 branch stores the
`in_addr_t` values (size 4, align 4) in network byte order followed by
a null-terminated pointer array (pointer size 8, align 8) with one
entry per value; the V6 branch is the same with 16-byte, 4-aligned
`in6_addr` values. Returns the final memory and the assembled
`hostent` record; the caller stores the record into `*resultp`. -/
def HostEntry.write_to (host : HostEntry) (buffer buflen : Nat)
    (m : Mem) : Mem × Except Error Hostent :=
  match BumpAllocator.from_ptr buffer buflen with
  | Except.error e => (m, Except.error e)
  | Except.ok alloc =>
  match alloc.copy_c_str m host.name with
  | (_, m1, Except.error e) => (m1, Except.error e)
  | (a1, m1, Except.ok h_name) =>
  match
    (if host.aliases.isEmpty then
      (a1, m1, Except.ok 0)
    else
      match copyAliases a1 m1 host.aliases with
      | (a2, m2, Except.error e) => (a2, m2, Except.error e)
      | (a2, m2, Except.ok ptrs) =>
        a2.allocate_array m2 8 8 (ptrs.map ptrBytes)) with
  | (_, m2, Except.error e) => (m2, Except.error e)
  | (a2, m2, Except.ok h_aliases) =>
  match host.addr_list with
  | HostAddressList.V4 addrs =>
    match a2.allocate_array m2 4 4
        (addrs.map fun ip => u32NetworkBytes (to_in_addr_t ip)) with
    | (_, m3, Except.error e) => (m3, Except.error e)
    | (a3, m3, Except.ok buf_addrs) =>
      match a3.allocate_array m3 8 8
          (((List.range addrs.length).map (fun i => buf_addrs + 4 * i)
              ++ [0]).map ptrBytes) with
      | (_, m4, Except.error e) => (m4, Except.error e)
      | (_, m4, Except.ok addr_ptrs) =>
        (m4, Except.ok ⟨h_name, h_aliases, AF_INET, 4, addr_ptrs⟩)
  | HostAddressList.V6 addrs =>
    match a2.allocate_array m2 16 4 (addrs.map Ipv6Addr.octets) with
    | (_, m3, Except.error e) => (m3, Except.error e)
    | (a3, m3, Except.ok buf_addrs) =>
      match a3.allocate_array m3 8 8
          (((List.range addrs.length).map (fun i => buf_addrs + 16 * i)
              ++ [0]).map ptrBytes) with
      | (_, m4, Except.error e) => (m4, Except.error e)
      | (_, m4, Except.ok addr_ptrs) =>
        (m4, Except.ok ⟨h_name, h_aliases, AF_INET6, 16, addr_ptrs⟩)

/-- The observable outcome of one entry-point call: the returned
status and the contents of the three caller-owned output slots
(`*errnop`, `*h_errnop`, `*resultp`) after the call. -/
structure NssOut where
  status : NssStatus
  errnoSlot : Int
  hErrnoSlot : Int
  resultSlot : Hostent
deriving DecidableEq, Repr

/-- `write_host_lookup_result` from `src/macros.rs`, with the prior
contents of the three output slots passed in. `none` stands for a
process abort inside `Error::new`. An `Err` from the collaborator and
an `Err` from the encoder are reported through
`Error::report_with_host`; `Ok(None)` is reported as
`with_errno(NotFound, ENOENT)`; only the fully assembled record is
stored into the result slot, in the single final assignment. -/
def write_host_lookup_result (lookup : Except Error (Option HostEntry))
    (r0 : Hostent) (buffer buflen : Nat) (m : Mem) (e0 h0 : Int) :
    Option NssOut :=
  match lookup with
  | Except.error err =>
    some ⟨(err.report_with_host e0 h0).1, (err.report_with_host e0 h0).2.1,
          (err.report_with_host e0 h0).2.2, r0⟩
  | Except.ok Option.none =>
    match Error.with_errno NssStatus.NotFound ENOENT with
    | Option.none => none
    | Option.some err =>
      some ⟨(err.report_with_host e0 h0).1, (err.report_with_host e0 h0).2.1,
            (err.report_with_host e0 h0).2.2, r0⟩
  | Except.ok (Option.some host) =>
    match host.write_to buffer buflen m with
    | (_, Except.error err) =>
      some ⟨(err.report_with_host e0 h0).1, (err.report_with_host e0 h0).2.1,
            (err.report_with_host e0 h0).2.2, r0⟩
    | (_, Except.ok record) =>
      some ⟨NssStatus.Success, e0, h0, record⟩

/-- `AddressFamily` from `src/interfaces.rs`. -/
inductive AddressFamily where
  | Ipv4
  | Ipv6
deriving DecidableEq, Repr

/-- `std::net::IpAddr`. -/
inductive IpAddr where
  | V4 (ip : Ipv4Addr)
  | V6 (ip : Ipv6Addr)
deriving Repr

/-- The `NameService` trait from `src/interfaces.rs`: the two required
methods an integrator supplies. -/
structure NameService where
  gethostbyname2_r : List Nat → AddressFamily → Except Error (Option HostEntry)
  gethostbyaddr_r : IpAddr → Except Error (Option HostEntry)

/-- The provided default method `NameService::gethostbyname_r` from
`src/interfaces.rs`: delegate to `gethostbyname2_r` with
`AddressFamily::Ipv4`. -/
def NameService.gethostbyname_r (S : NameService) (name : List Nat) :
    Except Error (Option HostEntry) :=
  S.gethostbyname2_r name AddressFamily.Ipv4

/-- `call_gethostbyname_r` from `src/macros.rs`: run the service's
one-argument lookup and hand the result to
`write_host_lookup_result`. -/
def call_gethostbyname_r (S : NameService) (name : List Nat)
    (r0 : Hostent) (buffer buflen : Nat) (m : Mem) (e0 h0 : Int) :
    Option NssOut :=
  write_host_lookup_result (S.gethostbyname_r name) r0 buffer buflen m e0 h0

/-- `call_gethostbyname2_r` from `src/macros.rs`: decode the numeric
address family (`AF_INET`, `AF_INET6`, otherwise report
`Error::invalid_args()` immediately), run the two-argument lookup and
hand the result to `write_host_lookup_result`. -/
def call_gethostbyname2_r (S : NameService) (name : List Nat) (af : Int)
    (r0 : Hostent) (buffer buflen : Nat) (m : Mem) (e0 h0 : Int) :
    Option NssOut :=
  if af = AF_INET then
    write_host_lookup_result (S.gethostbyname2_r name AddressFamily.Ipv4)
      r0 buffer buflen m e0 h0
  else if af = AF_INET6 then
    write_host_lookup_result (S.gethostbyname2_r name AddressFamily.Ipv6)
      r0 buffer buflen m e0 h0
  else
    match Error.new NssStatus.Unavailable EINVAL NETDB_INTERNAL with
    | Option.none => none
    | Option.some err =>
      some ⟨(err.report_with_host e0 h0).1, (err.report_with_host e0 h0).2.1,
            (err.report_with_host e0 h0).2.2, r0⟩

/-- The concrete host entry of the spec's encoder test:
`{name: "a.test", aliases: [], addresses: IPv4([127.0.0.1])}`. The
name bytes are the ASCII codes of `a.test`. -/
def exampleEntry : HostEntry :=
  { name := [97, 46, 116, 101, 115, 116]
    aliases := []
    addr_list := HostAddressList.V4 [⟨127, 0, 0, 1⟩] }

/-- A throwaway prior value for the caller's `hostent` slot. -/
def hostent0 : Hostent := ⟨0, 0, 0, 0, 0⟩

/-- `Error::invalid_args()` routes through `Error::new` and none of
the abort checks fires for its arguments. -/
theorem invalid_args_via_new :
    Error.new NssStatus.Unavailable EINVAL NETDB_INTERNAL
      = some Error.invalid_args := by decide

/-- An `Err` from `take` is always the insufficient-space error. -/
theorem take_error (a : BumpAllocator) (n : Nat) (a1 : BumpAllocator)
    (e : Error) (h : a.take n = (a1, Except.error e)) :
    e = Error.buffer_too_small := by
  unfold BumpAllocator.take at h
  split at h <;> simp_all

/-- The `0` arm of the `match` in `align_to`. -/
theorem align_to_zero (a : BumpAllocator) :
    a.align_to 0 = (a, Except.error Error.buffer_too_small) := rfl

/-- The `1` arm of the `match` in `align_to`. -/
theorem align_to_one (a : BumpAllocator) :
    a.align_to 1 = (a, Except.ok ()) := rfl

/-- The catch-all arm of the `match` in `align_to`. -/
theorem align_to_two_plus (a : BumpAllocator) (n : Nat) :
    a.align_to (n + 2) = a.align_to_multiple_of (n + 2) := rfl

/-- `roundUp` lands on a multiple of the alignment. -/
theorem roundUp_mod (p al : Nat) : roundUp p al % al = 0 := by
  unfold roundUp
  have hd := Nat.div_add_mod (p + (al - 1)) al
  have h2 : p + (al - 1) - (p + (al - 1)) % al
      = al * ((p + (al - 1)) / al) := by omega
  rw [h2]
  exact Nat.mul_mod_right _ _

/-- An `Err` from `align_to_multiple_of` is always the
insufficient-space error. -/
theorem align_to_multiple_of_error (a : BumpAllocator) (al : Nat)
    (a1 : BumpAllocator) (e : Error)
    (h : a.align_to_multiple_of al = (a1, Except.error e)) :
    e = Error.buffer_too_small := by
  unfold BumpAllocator.align_to_multiple_of at h
  split at h
  · simp_all
  · split at h <;> simp_all

/-- An `Err` from `align_to` is always the insufficient-space
error. -/
theorem align_to_error (a : BumpAllocator) (al : Nat)
    (a1 : BumpAllocator) (e : Error)
    (h : a.align_to al = (a1, Except.error e)) :
    e = Error.buffer_too_small := by
  match al with
  | 0 =>
    rw [align_to_zero] at h
    simp_all
  | 1 =>
    rw [align_to_one] at h
    simp_all
  | n + 2 =>
    rw [align_to_two_plus] at h
    exact align_to_multiple_of_error a (n + 2) a1 e h

/-- After a successful `align_to`, the cursor is a multiple of the
alignment. -/
theorem align_to_ok_aligned (a : BumpAllocator) (al : Nat)
    (a1 : BumpAllocator) (u : Unit)
    (h : a.align_to al = (a1, Except.ok u)) : a1.point % al = 0 := by
  match al with
  | 0 =>
    rw [align_to_zero] at h
    simp_all
  | 1 =>
    rw [align_to_one] at h
    simp_all [Nat.mod_one]
  | n + 2 =>
    rw [align_to_two_plus] at h
    unfold BumpAllocator.align_to_multiple_of at h
    split at h
    · simp_all
    · split at h
      · simp_all
      · have h1 : a1 = { a with point := roundUp a.point (n + 2) } := by
          simp_all
        subst h1
        exact roundUp_mod a.point (n + 2)

/-- An `Err` from `copy_c_str` is always the insufficient-space
error. -/
theorem copy_c_str_error (a : BumpAllocator) (m : Mem) (s : List Nat)
    (a1 : BumpAllocator) (m1 : Mem) (e : Error)
    (h : a.copy_c_str m s = (a1, m1, Except.error e)) :
    e = Error.buffer_too_small := by
  unfold BumpAllocator.copy_c_str at h
  split at h
  · rename_i a2 e2 heq
    simp only [Prod.mk.injEq, Except.error.injEq] at h
    exact (h.2.2 ▸ take_error a (s.length + 1) a2 e2 heq)
  · simp_all

/-- An `Err` from the element loop of `allocate_array` is always the
insufficient-space error. -/
theorem allocArrayLoop_error (elems : List (List Nat))
    (a : BumpAllocator) (m : Mem) (elemSize : Nat)
    (a1 : BumpAllocator) (m1 : Mem) (e : Error)
    (h : allocArrayLoop a m elemSize elems = (a1, m1, Except.error e)) :
    e = Error.buffer_too_small := by
  induction elems generalizing a m with
  | nil => simp [allocArrayLoop] at h
  | cons x rest ih =>
    unfold allocArrayLoop at h
    split at h
    · rename_i a2 e2 heq
      simp only [Prod.mk.injEq, Except.error.injEq] at h
      exact (h.2.2 ▸ take_error a elemSize a2 e2 heq)
    · exact ih _ _ h

/-- An `Err` from `allocate_array` is always the insufficient-space
error. -/
theorem allocate_array_error (a : BumpAllocator) (m : Mem)
    (elemSize elemAlign : Nat) (elems : List (List Nat))
    (a1 : BumpAllocator) (m1 : Mem) (e : Error)
    (h : a.allocate_array m elemSize elemAlign elems
      = (a1, m1, Except.error e)) :
    e = Error.buffer_too_small := by
  unfold BumpAllocator.allocate_array at h
  split at h
  · rename_i a2 e2 heq
    simp only [Prod.mk.injEq, Except.error.injEq] at h
    exact (h.2.2 ▸ align_to_error a elemAlign a2 e2 heq)
  · split at h
    · rename_i a2 m2 e2 heq
      simp only [Prod.mk.injEq, Except.error.injEq] at h
      exact (h.2.2 ▸ allocArrayLoop_error elems _ _ _ a2 m2 e2 heq)
    · simp_all

/-- An `Err` from the alias-copying loop is always the
insufficient-space error. -/
theorem copyAliases_error (aliases : List (List Nat))
    (a : BumpAllocator) (m : Mem) (a1 : BumpAllocator) (m1 : Mem)
    (e : Error)
    (h : copyAliases a m aliases = (a1, m1, Except.error e)) :
    e = Error.buffer_too_small := by
  induction aliases generalizing a m a1 m1 e with
  | nil => simp [copyAliases] at h
  | cons x rest ih =>
    unfold copyAliases at h
    split at h
    · rename_i a2 m2 e2 heq
      simp only [Prod.mk.injEq, Except.error.injEq] at h
      exact (h.2.2 ▸ copy_c_str_error a m x a2 m2 e2 heq)
    · split at h
      · rename_i a3 m3 e3 heq
        simp only [Prod.mk.injEq, Except.error.injEq] at h
        exact (h.2.2 ▸ ih _ _ _ _ _ heq)
      · simp_all

/-- An `Err` from `from_ptr` is always the invalid-arguments error. -/
theorem from_ptr_error (buffer buflen : Nat) (e : Error)
    (h : BumpAllocator.from_ptr buffer buflen = Except.error e) :
    e = Error.invalid_args := by
  unfold BumpAllocator.from_ptr at h
  split at h <;> simp_all

/-- Every `Err` produced by `HostEntry::write_to` is either the
insufficient-space error or the invalid-arguments error (the latter
only from `from_ptr`). -/
theorem write_to_error_shape (host : HostEntry) (buffer buflen : Nat)
    (m : Mem) (m1 : Mem) (e : Error)
    (h : host.write_to buffer buflen m = (m1, Except.error e)) :
    e = Error.buffer_too_small ∨ e = Error.invalid_args := by
  unfold HostEntry.write_to at h
  split at h
  · rename_i e2 heq
    simp only [Prod.mk.injEq, Except.error.injEq] at h
    exact Or.inr (h.2 ▸ from_ptr_error buffer buflen e2 heq)
  · rename_i alloc heq
    split at h
    · rename_i a2 m2 e2 heq2
      simp only [Prod.mk.injEq, Except.error.injEq] at h
      exact Or.inl (h.2 ▸ copy_c_str_error alloc m host.name _ m2 e2 heq2)
    · rename_i a1 m2 hn heq2
      split at h
      · rename_i a3 m3 e3 heq3
        simp only [Prod.mk.injEq, Except.error.injEq] at h
        refine Or.inl (h.2 ▸ ?_)
        split at heq3
        · simp_all
        · split at heq3
          · rename_i a4 m4 e4 heq4
            simp only [Prod.mk.injEq, Except.error.injEq] at heq3
            exact (heq3.2.2 ▸ copyAliases_error host.aliases _ _ a4 m4 e4 heq4)
          · rename_i a4 m4 ptrs heq4
            exact allocate_array_error _ _ _ _ _ a3 m3 e3 heq3
      · rename_i a3 m3 als heq3
        split at h
        · rename_i addrs
          split at h
          · rename_i a4 m4 e4 heq4
            simp only [Prod.mk.injEq, Except.error.injEq] at h
            exact Or.inl (h.2 ▸ allocate_array_error _ _ _ _ _ a4 m4 e4 heq4)
          · rename_i a4 m4 ba heq4
            split at h
            · rename_i a5 m5 e5 heq5
              simp only [Prod.mk.injEq, Except.error.injEq] at h
              exact Or.inl (h.2 ▸ allocate_array_error _ _ _ _ _ a5 m5 e5 heq5)
            · simp_all
        · rename_i addrs
          split at h
          · rename_i a4 m4 e4 heq4
            simp only [Prod.mk.injEq, Except.error.injEq] at h
            exact Or.inl (h.2 ▸ allocate_array_error _ _ _ _ _ a4 m4 e4 heq4)
          · rename_i a4 m4 ba heq4
            split at h
            · rename_i a5 m5 e5 heq5
              simp only [Prod.mk.injEq, Except.error.injEq] at h
              exact Or.inl (h.2 ▸ allocate_array_error _ _ _ _ _ a5 m5 e5 heq5)
            · simp_all

/-- C1: the claim says every placement operation preserves
`base ≤ cursor ≤ limit`, the cursor advancing only after the slot is
confirmed to fit. The code violates this: `copy_c_str` advances the
cursor twice — once inside `take`, then again with the unchecked
`self.point += nbytes;`. On the arena over a 6-byte buffer at 1000
(limit 1006), copying the 5-byte string `hello` (6 bytes with NUL)
returns `Ok` with the copy at 1000, yet leaves the cursor at
1012 — past the limit. -/
theorem c1_copy_c_str_overruns_limit :
    (BumpAllocator.copy_c_str ⟨1000, 1006⟩ mem0
        [104, 101, 108, 108, 111]).2.2 = Except.ok 1000
    ∧ (BumpAllocator.copy_c_str ⟨1000, 1006⟩ mem0
        [104, 101, 108, 108, 111]).1 = ⟨1012, 1006⟩
    ∧ (BumpAllocator.copy_c_str ⟨1000, 1006⟩ mem0
        [104, 101, 108, 108, 111]).1.stop
      < (BumpAllocator.copy_c_str ⟨1000, 1006⟩ mem0
        [104, 101, 108, 108, 111]).1.point :=
  ⟨rfl, rfl, by decide⟩

/-- C2: `Error::new` — hence `with_errno` and `with_host`, which
route through it — aborts (modelled as `none`) exactly when a
construction invariant is violated: status `Success`, or
`h_errno = NETDB_SUCCESS`, or `h_errno = NETDB_INTERNAL` with
`errno = 0`, or the reserved pairing `(TryAgain, ERANGE)`. -/
theorem c2_error_new_aborts_iff (status : NssStatus)
    (errno h_errno : Int) :
    (Error.new status errno h_errno = none
      ↔ status = NssStatus.Success
        ∨ h_errno = NETDB_SUCCESS
        ∨ (h_errno = NETDB_INTERNAL ∧ errno = 0)
        ∨ (status = NssStatus.TryAgain ∧ errno = ERANGE))
    ∧ Error.with_errno status errno
        = Error.new status errno NETDB_INTERNAL
    ∧ ∀ h : HostError, Error.with_host status errno h
        = Error.new status errno h.toInt := by
  refine ⟨?_, rfl, fun _ => rfl⟩
  unfold Error.new
  split_ifs with h1 h2 h3 h4 <;> simp_all

/-- C2 witness: constructing an Error with status `Success` aborts. -/
theorem c2_witness : Error.new NssStatus.Success 5 3 = none :=
  (c2_error_new_aborts_iff NssStatus.Success 5 3).1.mpr (Or.inl rfl)

/-- C3: encoding `{name: "a.test", aliases: [], addresses:
IPv4([127.0.0.1])}` into a 100-byte buffer at address 1000 succeeds;
the record's name field (1000) points at a NUL-terminated copy of
`a.test` inside the buffer, the aliases pointer is null, the family
tag is `AF_INET` with length 4, and the address list (1024) is a
pointer array whose single entry points at the 4 address bytes
(1016), stored in network byte order inside the buffer, followed by a
null terminator. -/
theorem c3_encode_example_entry :
    (exampleEntry.write_to 1000 100 mem0).2
        = Except.ok ⟨1000, 0, AF_INET, 4, 1024⟩
    ∧ readBytes (exampleEntry.write_to 1000 100 mem0).1 1000 7
        = [97, 46, 116, 101, 115, 116, 0]
    ∧ readPtr (exampleEntry.write_to 1000 100 mem0).1 1024 = 1016
    ∧ readPtr (exampleEntry.write_to 1000 100 mem0).1 1032 = 0
    ∧ readBytes (exampleEntry.write_to 1000 100 mem0).1 1016 4
        = [127, 0, 0, 1]
    ∧ (1000 + 7 ≤ 1100 ∧ 1000 ≤ 1016 ∧ 1016 + 4 ≤ 1100
        ∧ 1000 ≤ 1024 ∧ 1024 + 16 ≤ 1100) :=
  ⟨rfl, rfl, rfl, rfl, rfl, by decide⟩

/-- C4 counterexample: on the arena `⟨1001, 1007⟩`, reserving 4 bytes
at alignment 4 fails exactly because the rounded-up cursor (1004) plus
the size exceeds the limit (1008 > 1007), yet the cursor after the
failed call is 1004, not its pre-call value 1001 — `align_to` had
already advanced it before `take` failed. -/
theorem c4_counterexample :
    (BumpAllocator.allocate ⟨1001, 1007⟩ 4 4).2
        = Except.error Error.buffer_too_small
    ∧ 1007 < roundUp 1001 4 + 4
    ∧ roundUp 1001 4 ≤ 1007
    ∧ (BumpAllocator.allocate ⟨1001, 1007⟩ 4 4).1.point = 1004
    ∧ (1004 : Nat) ≠ 1001 :=
  ⟨rfl, by decide, by decide, rfl, by decide⟩

/-- C4 as amended: when the cursor rounded up to the requested
alignment fits but the rounded cursor plus the requested size exceeds
the limit, `allocate` returns the insufficient-space error and leaves
the cursor at the rounded-up (aligned) position — advanced only by the
alignment padding, never by the requested size, and still at most the
limit — rather than at its pre-call value. -/
theorem c4_allocate_fail_cursor_at_aligned (a : BumpAllocator)
    (size align : Nat) (h1 : 1 ≤ align)
    (h2 : a.point + (align - 1) ≤ USIZE_MAX)
    (h3 : roundUp a.point align ≤ a.stop)
    (h4 : a.stop < roundUp a.point align + size) :
    BumpAllocator.allocate a size align
      = ({ a with point := roundUp a.point align },
         Except.error Error.buffer_too_small) := by
  rcases align with _ | (_ | n)
  · exact absurd h1 (by omega)
  · norm_num at h2 h3 h4 ⊢
    have hr : roundUp a.point 1 = a.point := by
      unfold roundUp
      omega
    rw [hr] at h3 h4
    unfold BumpAllocator.allocate
    rw [align_to_one]
    show a.take size = _
    unfold BumpAllocator.take
    rw [if_pos (by omega), hr]
  · have hn : n + 1 + 1 = n + 2 := rfl
    rw [hn] at h2 h3 h4 ⊢
    unfold BumpAllocator.allocate
    rw [align_to_two_plus]
    unfold BumpAllocator.align_to_multiple_of
    rw [if_neg (by omega), if_neg (by omega)]
    show ({ a with point := roundUp a.point (n + 2) } :
        BumpAllocator).take size = _
    unfold BumpAllocator.take
    rw [if_pos]
    show a.stop - roundUp a.point (n + 2) < size
    omega

/-- C4 witness: the amended statement applied to the counterexample
input. -/
theorem c4_witness :
    BumpAllocator.allocate ⟨1001, 1007⟩ 4 4
      = (⟨1004, 1007⟩, Except.error Error.buffer_too_small) :=
  c4_allocate_fail_cursor_at_aligned ⟨1001, 1007⟩ 4 4 (by decide)
    (by decide) (by decide) (by decide)

/-- C5: for every Error and every pair of prior slot contents,
`report_with_host` always writes `h_errno` into the secondary slot,
writes `errno` into the primary slot exactly when
`h_errno = NETDB_INTERNAL` (otherwise the primary slot keeps its prior
contents), and returns the Error's status. -/
theorem c5_report_protocol (e : Error) (e0 h0 : Int) :
    (e.report_with_host e0 h0).2.2 = e.h_errno
    ∧ (e.h_errno = NETDB_INTERNAL →
        (e.report_with_host e0 h0).2.1 = e.errno)
    ∧ (e.h_errno ≠ NETDB_INTERNAL →
        (e.report_with_host e0 h0).2.1 = e0)
    ∧ (e.report_with_host e0 h0).1 = e.status := by
  unfold Error.report_with_host
  refine ⟨rfl, fun h => ?_, fun h => ?_, rfl⟩ <;> simp [h]

/-- C5 witness: a domain-specific failure (`h_errno = 3`, not the
internal sentinel) writes the secondary slot and leaves the primary
slot's prior contents (7) unchanged. -/
theorem c5_witness :
    (Error.report_with_host ⟨NssStatus.Unavailable, 22, 3⟩ 7 9).2.2 = 3
    ∧ (Error.report_with_host ⟨NssStatus.Unavailable, 22, 3⟩ 7 9).2.1
        = 7 := by
  have h := c5_report_protocol ⟨NssStatus.Unavailable, 22, 3⟩ 7 9
  exact ⟨h.1, h.2.2.1 (by decide)⟩

/-- C6: encoding the example entry into a 1-byte buffer fails at the
name copy; the call reports status `TryAgain`, primary code `ERANGE`,
secondary code `NETDB_INTERNAL`, and leaves the result slot
untouched, whatever the prior slot contents were. -/
theorem c6_tiny_buffer_retry (r0 : Hostent) (e0 h0 : Int) :
    write_host_lookup_result (Except.ok (some exampleEntry)) r0 1000 1
        mem0 e0 h0
      = some ⟨NssStatus.TryAgain, ERANGE, NETDB_INTERNAL, r0⟩ := rfl

/-- C7: every successful placement request of alignment `align` (a
power of two, as every Rust type alignment is) — through `allocate` or
through `allocate_array` — returns an address that is a multiple of
`align`. -/
theorem c7_placement_aligned (a : BumpAllocator) (size align : Nat)
    (_hpow : ∃ k, align = 2 ^ k) :
    (∀ a1 p, BumpAllocator.allocate a size align = (a1, Except.ok p)
        → p % align = 0)
    ∧ ∀ m elemSize elems a1 m1 p,
        BumpAllocator.allocate_array a m elemSize align elems
            = (a1, m1, Except.ok p)
          → p % align = 0 := by
  constructor
  · intro a1 p h
    unfold BumpAllocator.allocate at h
    split at h
    · simp_all
    · rename_i a2 u heq
      unfold BumpAllocator.take at h
      split at h
      · simp_all
      · simp only [Prod.mk.injEq, Except.ok.injEq] at h
        have ha := align_to_ok_aligned a align a2 u heq
        rw [← h.2]
        exact ha
  · intro m elemSize elems a1 m1 p h
    unfold BumpAllocator.allocate_array at h
    split at h
    · simp_all
    · rename_i a2 u heq
      split at h
      · simp_all
      · simp only [Prod.mk.injEq, Except.ok.injEq] at h
        have ha := align_to_ok_aligned a align a2 u heq
        rw [← h.2.2]
        exact ha

/-- C7 witness: allocating 4 bytes at alignment 4 from the arena
`⟨1001, 1100⟩` succeeds at address 1004, a multiple of 4. -/
theorem c7_witness :
    BumpAllocator.allocate ⟨1001, 1100⟩ 4 4
        = (⟨1008, 1100⟩, Except.ok 1004)
    ∧ (1004 : Nat) % 4 = 0 :=
  ⟨rfl, (c7_placement_aligned ⟨1001, 1100⟩ 4 4 ⟨2, rfl⟩).1
    ⟨1008, 1100⟩ 1004 rfl⟩

/-- C8: for every `(base, length)` pair whose sum overflows the
address range, `from_ptr` returns the invalid-arguments error; and any
allocator it does construct has an end address within the addressable
range (no wrap-around). -/
theorem c8_from_ptr_overflow (buffer buflen : Nat)
    (hb : buffer ≤ USIZE_MAX) :
    (USIZE_MAX < buffer + buflen →
        BumpAllocator.from_ptr buffer buflen
          = Except.error Error.invalid_args)
    ∧ ∀ a, BumpAllocator.from_ptr buffer buflen = Except.ok a
        → a.stop ≤ USIZE_MAX := by
  constructor
  · intro hov
    unfold BumpAllocator.from_ptr
    rw [if_pos (Or.inr (by omega))]
  · intro a ha
    unfold BumpAllocator.from_ptr at ha
    split at ha
    · simp_all
    · rename_i hcond
      simp only [not_or, not_lt] at hcond
      simp only [Except.ok.injEq] at ha
      rw [← ha]
      show buffer + buflen ≤ USIZE_MAX
      omega

/-- C8 witness: a buffer at the top of the address space with length 1
overflows and is rejected with the invalid-arguments error. -/
theorem c8_witness :
    BumpAllocator.from_ptr (2 ^ 64 - 1) 1
      = Except.error Error.invalid_args :=
  (c8_from_ptr_overflow (2 ^ 64 - 1) 1 (by decide)).1 (by decide)

/-- C9: assuming every collaborator Error carries a non-Success status
(which `Error::new` enforces at construction and field privacy makes
unavoidable), `write_host_lookup_result` stores into the result slot
exactly when it returns `Success`: on `Success` the slot holds the
record assembled by `write_to`, and on every other outcome —
collaborator error, no-result, or encoding failure — the slot still
holds its prior contents `r0`. -/
theorem c9_store_iff_success
    (lookup : Except Error (Option HostEntry)) (r0 : Hostent)
    (buffer buflen : Nat) (m : Mem) (e0 h0 : Int)
    (hwf : ∀ err, lookup = Except.error err
      → err.status ≠ NssStatus.Success)
    (out : NssOut)
    (hout : write_host_lookup_result lookup r0 buffer buflen m e0 h0
      = some out) :
    (out.status = NssStatus.Success →
        ∃ host, lookup = Except.ok (some host)
          ∧ (host.write_to buffer buflen m).2
              = Except.ok out.resultSlot)
    ∧ (out.status ≠ NssStatus.Success → out.resultSlot = r0) := by
  unfold write_host_lookup_result at hout
  split at hout
  · rename_i err
    simp only [Option.some.injEq] at hout
    subst hout
    exact ⟨fun hs => absurd hs (hwf err rfl), fun _ => rfl⟩
  · have hwe : Error.with_errno NssStatus.NotFound ENOENT
        = some ⟨NssStatus.NotFound, ENOENT, NETDB_INTERNAL⟩ := by decide
    rw [hwe] at hout
    simp only [Option.some.injEq] at hout
    subst hout
    exact ⟨fun hs => by simp [Error.report_with_host] at hs, fun _ => rfl⟩
  · rename_i host
    split at hout
    · rename_i mw err heq
      simp only [Option.some.injEq] at hout
      subst hout
      refine ⟨fun hs => ?_, fun _ => rfl⟩
      rcases write_to_error_shape host buffer buflen m mw err heq with
        he | he <;> subst he <;>
        simp [Error.report_with_host, Error.buffer_too_small,
          Error.invalid_args] at hs
    · rename_i mw record heq
      simp only [Option.some.injEq] at hout
      subst hout
      refine ⟨fun _ => ⟨host, rfl, ?_⟩, fun hns => absurd rfl hns⟩
      rw [heq]

/-- C9 witness: a no-result lookup returns `NotFound` and leaves the
result slot holding its prior contents. -/
theorem c9_witness :
    NssOut.resultSlot
        ⟨NssStatus.NotFound, ENOENT, NETDB_INTERNAL, hostent0⟩
      = hostent0 :=
  (c9_store_iff_success (Except.ok none) hostent0 1000 1 mem0 5 6
      (fun _ h => nomatch h)
      ⟨NssStatus.NotFound, ENOENT, NETDB_INTERNAL, hostent0⟩ rfl).2
    (by decide)

/-- C10: the one-argument lookup is the two-argument lookup at IPv4:
both for the trait's default method itself and for the full entry
points, where `call_gethostbyname_r` coincides with
`call_gethostbyname2_r` invoked with `AF_INET`. -/
theorem c10_gethostbyname_default (S : NameService) (name : List Nat)
    (r0 : Hostent) (buffer buflen : Nat) (m : Mem) (e0 h0 : Int) :
    S.gethostbyname_r name = S.gethostbyname2_r name AddressFamily.Ipv4
    ∧ call_gethostbyname_r S name r0 buffer buflen m e0 h0
        = call_gethostbyname2_r S name AF_INET r0 buffer buflen m e0 h0
    := by
  refine ⟨rfl, ?_⟩
  unfold call_gethostbyname_r call_gethostbyname2_r
  rw [if_pos rfl]
  rfl

end Nss
